import Mathlib

/-!
Shallow embedding of the decision core of the BoboAgent negotiation agents
(files `src/agents/bobo_agent/bobo_agent.py`, boolean-flag variant, and
`src/agents/bobo_agent_dynamic_flags/bobo_agent.py`, continuous-weights
variant).

Real-valued quantities of the Python code (utilities, progress, weights)
are embedded as rationals.  The opponent model (`utils/opponent_model.py`,
not part of the two source files) enters only through the predicted-utility
values it produces, so it is embedded as an abstract function
`get_predicted_utility : Bid → ℚ` (respectively as the already-computed
predicted utility of a concrete bid); the bid space is an abstract type.
Randomness in `find_bid` is derandomized by passing the list of 500 sampled
bids, and the fallback random draw, as explicit arguments.
-/

namespace BoboAgent

/-- Mutable classifier state of the boolean-flag variant: the fields
`self.opponent_utils`, `self.opponent_is_greedy`, `self.opponent_is_nice`
of `BoboAgent.__init__` (bobo_agent.py lines 51-53). -/
structure ClassifierState where
  opponent_utils : List ℚ
  opponent_is_greedy : Bool
  opponent_is_nice : Bool
deriving Repr, DecidableEq

/-- Initial classifier state (`__init__`): empty history, both flags False. -/
def initState : ClassifierState :=
  { opponent_utils := [], opponent_is_greedy := false, opponent_is_nice := false }

/-- The classifier part of `opponent_action` (bobo_agent.py lines 182-193):
append the predicted utility of the opponent's own offer to
`self.opponent_utils`; once at least 3 observations exist, average the last
five (`self.opponent_utils[-5:]`) and set `opponent_is_greedy` when the
average exceeds 0.87, `opponent_is_nice` when it lies strictly between 0.6
and 0.9.  The Python code only ever assigns `True`; a flag is never reset. -/
def classifyStep (s : ClassifierState) (util : ℚ) : ClassifierState :=
  let utils := s.opponent_utils ++ [util]
  if utils.length ≥ 3 then
    let recent := utils.drop (utils.length - 5)
    let avg_util := recent.sum / (recent.length : ℚ)
    { opponent_utils := utils
    , opponent_is_greedy :=
        if avg_util > 87/100 then true else s.opponent_is_greedy
    , opponent_is_nice :=
        if 6/10 < avg_util ∧ avg_util < 9/10 then true else s.opponent_is_nice }
  else
    { s with opponent_utils := utils }

/-- Classifier state after processing a whole sequence of predicted
utilities of opponent offers, starting from the initial state. -/
def runClassifier (utils : List ℚ) : ClassifierState :=
  utils.foldl classifyStep initState

/-- The sliding window `self.opponent_utils[-5:]` used by the classifier. -/
def recentWindow (utils : List ℚ) : List ℚ :=
  utils.drop (utils.length - 5)

/-- Last-resort deadline thresholds at the end of `accept_condition`
(bobo_agent.py lines 297-307): graduated acceptance thresholds stepped at
progress 0.98 / 0.97 / 0.96 / 0.95, else refuse. -/
def lastResort (progress offered_util : ℚ) : Bool :=
  if progress > 98/100 then offered_util > 7/10
  else if progress > 97/100 then offered_util > 75/100
  else if progress > 96/100 then offered_util > 8/10
  else if progress > 95/100 then offered_util > 85/100
  else false

/-- Embedding of `accept_condition` of the boolean-flag variant (bobo_agent.py lines
243-307).  The received bid is embedded as `some (offered_util,
opponent_util)`, the pair of `self.profile.getUtility(bid)` and
`self.opponent_model.get_predicted_utility(bid)`; `none` embeds
`bid is None`.  `hasOpponentModel` embeds `self.opponent_model` being
non-None; when it is `false` the model-reading block is skipped and
`opponent_util` is never read, exactly as in the source. -/
def accept_condition (opponent_is_greedy opponent_is_nice hasOpponentModel : Bool)
    (progress : ℚ) (bid : Option (ℚ × ℚ)) : Bool :=
  match bid with
  | none => false
  | some (offered_util, opponent_util) =>
    if offered_util ≥ 9/10 then true
    else if opponent_is_greedy = true ∧ offered_util > 65/100 then true
    else if hasOpponentModel then
      if opponent_is_greedy then
        if progress > 99/100 ∧ offered_util > 6/10 then true
        else if progress > 97/100 ∧ offered_util > 7/10 then true
        else false
      else if opponent_is_nice = true ∧ progress > 95/100 ∧
          offered_util > 75/100 ∧ opponent_util > 7/10 then true
      else if progress > 6/10 ∧ offered_util > 6/10 ∧ opponent_util < 1/2 then true
      else if progress > 97/100 ∧ offered_util > 85/100 ∧ opponent_util < 6/10 then true
      else if opponent_is_greedy = false ∧ offered_util * opponent_util > 75/100 then true
      else if progress > 95/100 ∧ opponent_util > 9/10 ∧ offered_util < 7/10 then false
      else if progress > 93/100 ∧ offered_util > 65/100 ∧ opponent_util < 1/2 then true
      else lastResort progress offered_util
    else lastResort progress offered_util

/-- Embedding of `score_bid` of the boolean-flag variant (bobo_agent.py lines 346-414)
with its default arguments alpha = 0.95 and eps = 0.1 (so the exponent
1/eps is 10).  When `self.opponent_model is None` only own utility,
discounted by time pressure, is scored; otherwise bids whose predicted
opponent utility falls below the rejection threshold 0.1 - 0.08*progress
score 0 (only when the opponent is not classified greedy); a greedy
classification returns own utility alone; otherwise the convex-style
combination of own and opponent utility is returned. -/
def score_bid {Bid : Type} (opponent_is_greedy opponent_is_nice hasOpponentModel : Bool)
    (getUtility get_predicted_utility : Bid → ℚ) (progress : ℚ) (bid : Bid) : ℚ :=
  if hasOpponentModel = false then
    95/100 * (1 - progress ^ (10 : ℕ)) * getUtility bid
  else
    let opponent_utility := get_predicted_utility bid
    if opponent_is_greedy = false ∧ opponent_utility < 1/10 - 8/100 * progress then 0
    else
      let alpha : ℚ :=
        if opponent_is_nice then 7/10
        else if opponent_is_greedy then 95/100
        else 95/100 - 45/100 * progress
      if opponent_is_greedy then getUtility bid
      else
        let our_utility := getUtility bid
        let time_pressure := 1 - progress ^ (10 : ℕ)
        alpha * time_pressure * our_utility +
          (1 - alpha * time_pressure) * get_predicted_utility bid

/-- Minimum-utility floor of `find_bid` in the boolean-flag variant
(bobo_agent.py line 323): 0.85 * (1 - 0.25 * progress). -/
def min_util (progress : ℚ) : ℚ := 85/100 * (1 - 25/100 * progress)

end BoboAgent

namespace BidSearch

/-- One iteration of the sampling loop shared by both variants of
`find_bid` (bobo_agent.py lines 326-338, dynamic variant lines 183-190):
skip the sampled bid when its own utility is below the floor, otherwise
keep it as the running best exactly when its score strictly exceeds the
best score so far (initially 0.0 with no best bid). -/
def sampleStep {Bid : Type} (getUtility score : Bid → ℚ) (min_util : ℚ)
    (acc : Option Bid × ℚ) (bid : Bid) : Option Bid × ℚ :=
  if getUtility bid < min_util then acc
  else
    let bid_score := score bid
    if bid_score > acc.2 then (some bid, bid_score) else acc

/-- The whole sampling loop of `find_bid`, over the explicit list of
sampled bids, starting from `best_bid = None`, `best_bid_score = 0.0`. -/
def find_bid_loop {Bid : Type} (getUtility score : Bid → ℚ) (min_util : ℚ)
    (samples : List Bid) : Option Bid × ℚ :=
  samples.foldl (sampleStep getUtility score min_util) (none, 0)

/-- Embedding of `find_bid` of either variant (bobo_agent.py lines 310-344, dynamic
variant lines 173-192): the best sampled bid if one was retained,
otherwise the uniformly-random fallback bid (`fallbackBid` embeds the
final `all_bids.get(randint(...))` safety draw). -/
def find_bid {Bid : Type} (getUtility score : Bid → ℚ) (min_util : ℚ)
    (samples : List Bid) (fallbackBid : Bid) : Bid :=
  match (find_bid_loop getUtility score min_util samples).1 with
  | some best_bid => best_bid
  | none => fallbackBid

end BidSearch

namespace BoboAgent

/-- Rendering of a Python bool inside an f-string: `True` or `False`. -/
def pythonBoolStr (b : Bool) : List Char :=
  if b then "True".toList else "False".toList

/-- Embedding of `save_data` of the boolean-flag variant (bobo_agent.py lines 211-221):
when `self.other is None` nothing is saved; otherwise the line
`f"{self.other},{self.opponent_is_greedy},{self.opponent_is_nice}"` is
appended to `data.md`.  The file is embedded as its list of lines, each
line without its trailing newline (as produced by `line.strip()` on read). -/
def save_data (other : Option (List Char)) (opponent_is_greedy opponent_is_nice : Bool)
    (file : List (List Char)) : List (List Char) :=
  match other with
  | none => file
  | some o =>
      file ++ [o ++ [','] ++ pythonBoolStr opponent_is_greedy ++ [','] ++
        pythonBoolStr opponent_is_nice]

/-- Helper for splitting a line at commas, accumulating the current field
in reverse; embeds the behaviour of Python `str.split(",")`. -/
def splitCommaAux : List Char → List Char → List (List Char)
  | acc, [] => [acc.reverse]
  | acc, c :: cs =>
      if c = ',' then acc.reverse :: splitCommaAux [] cs
      else splitCommaAux (c :: acc) cs

/-- Python `line.split(",")` on a (stripped) line. -/
def splitComma (line : List Char) : List (List Char) :=
  splitCommaAux [] line

/-- The Python comparison `parts[0] == self.other`: comparing a `str`
against `None` yields `False`, never an error. -/
def matchesOther (s : List Char) : Option (List Char) → Bool
  | none => false
  | some o => s == o

/-- The reading loop of `load_opponent_data` (bobo_agent.py lines 129-135):
scan the lines of `data.md`; at the first line splitting into exactly 3
comma-separated parts whose first part equals `self.other`, set
`opponent_is_greedy` to whether part 1 is the string `True` and
`opponent_is_nice` to whether part 2 is the string `True`, then stop.
Returns the resulting pair of flags, starting from the current flags. -/
def load_opponent_data (other : Option (List Char)) (file : List (List Char))
    (opponent_is_greedy opponent_is_nice : Bool) : Bool × Bool :=
  match file with
  | [] => (opponent_is_greedy, opponent_is_nice)
  | line :: rest =>
    let parts := splitComma line
    if parts.length = 3 ∧ matchesOther (parts.get! 0) other = true then
      (parts.get! 1 == "True".toList, parts.get! 2 == "True".toList)
    else
      load_opponent_data other rest opponent_is_greedy opponent_is_nice

/-- Classification flags at the start of a fresh session: `__init__` sets
both flags to False and `self.other = None`; `load_opponent_data` is then
called from the `Settings` branch of `notifyChange` (line 92), before any
opponent action has been observed, so it runs with `self.other` still
`None`. -/
def sessionStartFlags (file : List (List Char)) : Bool × Bool :=
  load_opponent_data none file false false

end BoboAgent

namespace BoboAgentDynamic

/-- Mutable classifier state of the continuous-weights variant: the fields
`self.opponent_utils`, `self.greedy_weight`, `self.nice_weight` of
`BoboAgentDynamic.__init__` (dynamic bobo_agent.py lines 51-55). -/
structure DynState where
  opponent_utils : List ℚ
  greedy_weight : ℚ
  nice_weight : ℚ
deriving Repr, DecidableEq

/-- Initial state: empty history, both weights 0.0. -/
def dynInit : DynState :=
  { opponent_utils := [], greedy_weight := 0, nice_weight := 0 }

/-- The classifier part of `opponent_action` in the continuous-weights
variant (dynamic bobo_agent.py lines 118-130): append the predicted
utility; once at least 3 observations exist, average the last five and
recompute both weights from that average and the current progress:
`greedy_weight = min(1, max(0, |avg - 0.5| * 2 - 0.15 * progress))`,
`nice_weight = min(1, max(0, 1.3 - avg - 0.15 * progress))`. -/
def dynStep (s : DynState) (util progress : ℚ) : DynState :=
  let utils := s.opponent_utils ++ [util]
  if utils.length ≥ 3 then
    let recent := utils.drop (utils.length - 5)
    let avg_util := recent.sum / (recent.length : ℚ)
    { opponent_utils := utils
    , greedy_weight := min 1 (max 0 (|avg_util - 1/2| * 2 - 15/100 * progress))
    , nice_weight := min 1 (max 0 (13/10 - avg_util - 15/100 * progress)) }
  else
    { s with opponent_utils := utils }

/-- Classifier state after a sequence of (predicted utility, progress)
observations, starting from the initial state. -/
def runDynClassifier (obs : List (ℚ × ℚ)) : DynState :=
  obs.foldl (fun s p => dynStep s p.1 p.2) dynInit

/-- Embedding of `accept_condition` of the continuous-weights variant (dynamic
bobo_agent.py lines 148-171), with the bid embedded as
`some (offered_util, opponent_util)` and `none` for `bid is None`. -/
def accept_condition (greedy_weight : ℚ) (hasOpponentModel : Bool)
    (progress : ℚ) (bid : Option (ℚ × ℚ)) : Bool :=
  match bid with
  | none => false
  | some (offered_util, opponent_util) =>
    if offered_util ≥ 85/100 then true
    else if greedy_weight < 1/2 ∧ progress > 9/10 ∧ offered_util > 7/10 then true
    else if hasOpponentModel = true ∧ progress > 95/100 ∧
        offered_util > 75/100 ∧ opponent_util > 6/10 then true
    else if hasOpponentModel = true ∧ progress > 99/100 ∧
        offered_util > 7/10 ∧ opponent_util < 1/2 then true
    else
      offered_util >
        (if progress > 98/100 then 75/100
         else if progress > 95/100 then 8/10
         else 85/100)

/-- The trade-off weight of the continuous-weights `score_bid` (dynamic
bobo_agent.py line 200): `alpha = max(0.6, 0.95 - 0.3 * progress * (1 -
nice_weight))`. -/
def alphaDyn (progress nice_weight : ℚ) : ℚ :=
  max (6/10) (95/100 - 3/10 * progress * (1 - nice_weight))

/-- Embedding of `score_bid` of the continuous-weights variant (dynamic bobo_agent.py
lines 194-201): `alpha * our_utility + (1 - alpha) * opponent_utility *
(1 - greedy_weight)`, where `opponent_utility` is 0 when no opponent model
exists yet. -/
def score_bid {Bid : Type} (greedy_weight nice_weight : ℚ) (hasOpponentModel : Bool)
    (getUtility get_predicted_utility : Bid → ℚ) (progress : ℚ) (bid : Bid) : ℚ :=
  let our_utility := getUtility bid
  let opponent_utility := if hasOpponentModel then get_predicted_utility bid else 0
  let alpha := alphaDyn progress nice_weight
  alpha * our_utility + (1 - alpha) * opponent_utility * (1 - greedy_weight)

/-- Minimum-utility floor of `find_bid` in the continuous-weights variant
(dynamic bobo_agent.py line 181): 0.85 * (1 - 0.15 * progress). -/
def min_util (progress : ℚ) : ℚ := 85/100 * (1 - 15/100 * progress)

/-- Embedding of `save_data` of the continuous-weights variant (dynamic bobo_agent.py
lines 142-146): overwrites `data.md` with the constant line
`Learning data (see README.md)`; no classification field is written, and
this variant has no load path at all. -/
def save_data (_file : List (List Char)) : List (List Char) :=
  ["Learning data (see README.md)".toList]

end BoboAgentDynamic

/-! ## Claim C7: own utility at or above 0.9 is always accepted -/

/-- C7: for every received bid with own utility at least 0.9,
`accept_condition` returns ACCEPT in both variants, for every progress
value and every classification state of the opponent. -/
theorem C7_high_utility_always_accepted
    (g n hm : Bool) (gw : ℚ) (hm2 : Bool) (p1 p2 offered opp1 opp2 : ℚ)
    (h : offered ≥ 9/10) :
    BoboAgent.accept_condition g n hm p1 (some (offered, opp1)) = true ∧
    BoboAgentDynamic.accept_condition gw hm2 p2 (some (offered, opp2)) = true := by
  constructor
  · simp only [BoboAgent.accept_condition]
    rw [if_pos h]
  · simp only [BoboAgentDynamic.accept_condition]
    rw [if_pos (by linarith : offered ≥ 85/100)]

/-- Witness for C7 at offered utility 0.9, progress 0.5, neutral flags. -/
theorem C7_high_utility_always_accepted_witness :
    BoboAgent.accept_condition false false false (1/2) (some ((9:ℚ)/10, 0)) = true ∧
    BoboAgentDynamic.accept_condition 0 false (1/2) (some ((9:ℚ)/10, 0)) = true :=
  C7_high_utility_always_accepted false false false 0 false (1/2) (1/2) (9/10) 0 0 (le_refl _)

/-! ## Claim C4: under a greedy classification the score ignores the opponent -/

/-- C4: when the opponent is classified greedy, `score_bid` of the
boolean-flag variant returns exactly the own utility of the bid; in the
continuous-weights variant at full greedy weight the opponent term is
multiplied by zero, so the score is the trade-off weight times own
utility, and any two bids with equal own utility receive identical scores
no matter how different their predicted opponent utilities are. -/
theorem C4_greedy_score_is_own_utility :
    (∀ (Bid : Type) (nice : Bool) (u pred : Bid → ℚ) (p : ℚ) (b : Bid),
      BoboAgent.score_bid true nice true u pred p b = u b) ∧
    (∀ (Bid : Type) (nw : ℚ) (hm : Bool) (u pred : Bid → ℚ) (p : ℚ) (b : Bid),
      BoboAgentDynamic.score_bid 1 nw hm u pred p b =
        BoboAgentDynamic.alphaDyn p nw * u b) ∧
    (∀ (Bid : Type) (nw : ℚ) (hm : Bool) (u pred : Bid → ℚ) (p : ℚ) (b1 b2 : Bid),
      u b1 = u b2 →
      BoboAgentDynamic.score_bid 1 nw hm u pred p b1 =
        BoboAgentDynamic.score_bid 1 nw hm u pred p b2) := by
  have hdyn : ∀ (Bid : Type) (nw : ℚ) (hm : Bool) (u pred : Bid → ℚ) (p : ℚ) (b : Bid),
      BoboAgentDynamic.score_bid 1 nw hm u pred p b =
        BoboAgentDynamic.alphaDyn p nw * u b := by
    intro Bid nw hm u pred p b
    simp only [BoboAgentDynamic.score_bid]
    ring
  refine ⟨?_, hdyn, ?_⟩
  · intro Bid nice u pred p b
    simp [BoboAgent.score_bid]
  · intro Bid nw hm u pred p b1 b2 h
    rw [hdyn, hdyn, h]

/-- Witness for C4: two bids with equal own utility 0.8 but predicted
opponent utilities 0 and 1 receive identical scores at full greedy
weight. -/
theorem C4_greedy_score_is_own_utility_witness :
    BoboAgentDynamic.score_bid 1 0 true (fun _ : Bool => (8:ℚ)/10)
      (fun b : Bool => if b then 1 else 0) (1/2) true =
    BoboAgentDynamic.score_bid 1 0 true (fun _ : Bool => (8:ℚ)/10)
      (fun b : Bool => if b then 1 else 0) (1/2) false :=
  C4_greedy_score_is_own_utility.2.2 Bool 0 true (fun _ => (8:ℚ)/10)
    (fun b => if b then 1 else 0) (1/2) true false rfl

/-! ## Claim C10: the continuous-weights score is bounded in [0,1] -/

/-- C10: in the continuous-weights variant, when own utility, predicted
opponent utility, greedy weight, nice weight and progress all lie in
[0,1], the trade-off weight alpha lies in [0.65, 0.95] and `score_bid`
returns a value in [0,1]. -/
theorem C10_dyn_score_bounded {Bid : Type} (gw nw p : ℚ) (hm : Bool)
    (u pred : Bid → ℚ) (b : Bid)
    (hp0 : 0 ≤ p) (hp1 : p ≤ 1) (hgw0 : 0 ≤ gw) (hgw1 : gw ≤ 1)
    (hnw0 : 0 ≤ nw) (hnw1 : nw ≤ 1) (hu0 : 0 ≤ u b) (hu1 : u b ≤ 1)
    (hv0 : 0 ≤ pred b) (hv1 : pred b ≤ 1) :
    (65/100 ≤ BoboAgentDynamic.alphaDyn p nw ∧
      BoboAgentDynamic.alphaDyn p nw ≤ 95/100) ∧
    0 ≤ BoboAgentDynamic.score_bid gw nw hm u pred p b ∧
    BoboAgentDynamic.score_bid gw nw hm u pred p b ≤ 1 := by
  have hpn : 0 ≤ p * (1 - nw) := mul_nonneg hp0 (by linarith)
  have hpn1 : p * (1 - nw) ≤ 1 := by nlinarith
  have ha1 : 65/100 ≤ BoboAgentDynamic.alphaDyn p nw := by
    refine le_trans ?_ (le_max_right _ _)
    nlinarith
  have ha2 : BoboAgentDynamic.alphaDyn p nw ≤ 95/100 := by
    refine max_le (by norm_num) ?_
    nlinarith
  refine ⟨⟨ha1, ha2⟩, ?_⟩
  set a := BoboAgentDynamic.alphaDyn p nw with hadef
  have hv0' : (0:ℚ) ≤ (if hm then pred b else 0) := by
    cases hm <;> simp [hv0]
  have hv1' : (if hm then pred b else 0) ≤ 1 := by
    cases hm <;> simp [hv1]
  simp only [BoboAgentDynamic.score_bid, ← hadef]
  constructor
  · have h1 : 0 ≤ a * u b := mul_nonneg (by linarith) hu0
    have h2 : 0 ≤ (1 - a) * (if hm then pred b else 0) * (1 - gw) :=
      mul_nonneg (mul_nonneg (by linarith) hv0') (by linarith)
    linarith
  · have h1 : a * u b ≤ a * 1 := by
      apply mul_le_mul_of_nonneg_left hu1 (by linarith)
    have h2 : (1 - a) * (if hm then pred b else 0) * (1 - gw) ≤ (1 - a) * 1 * 1 := by
      apply mul_le_mul
      · apply mul_le_mul_of_nonneg_left hv1' (by linarith)
      · linarith
      · linarith
      · have := mul_nonneg (by linarith : (0:ℚ) ≤ 1 - a) hv0'
        linarith [mul_one ((1:ℚ) - a)]
    nlinarith

/-- Witness for C10 at progress 1/2, both weights 1/2, own utility 3/4,
predicted opponent utility 1/4. -/
theorem C10_dyn_score_bounded_witness :
    (65/100 ≤ BoboAgentDynamic.alphaDyn (1/2) (1/2) ∧
      BoboAgentDynamic.alphaDyn (1/2) (1/2) ≤ 95/100) ∧
    0 ≤ BoboAgentDynamic.score_bid (1/2) (1/2) true
      (fun _ : ℕ => (3:ℚ)/4) (fun _ => 1/4) (1/2) 0 ∧
    BoboAgentDynamic.score_bid (1/2) (1/2) true
      (fun _ : ℕ => (3:ℚ)/4) (fun _ => 1/4) (1/2) 0 ≤ 1 :=
  C10_dyn_score_bounded (1/2) (1/2) (1/2) true (fun _ : ℕ => (3:ℚ)/4) (fun _ => 1/4) 0
    (by norm_num) (by norm_num) (by norm_num) (by norm_num) (by norm_num)
    (by norm_num) (by norm_num) (by norm_num) (by norm_num) (by norm_num)

/-! ## Claim C6: the rejection floor zeroes the score -/

/-- C6 counterexample: the continuous-weights variant has no rejection
floor.  With neutral weights, progress 0, own utility 0.8 and predicted
opponent utility 0.05 (below the floor 0.1 - 0.08 * 0 = 0.1), its
`score_bid` returns 0.95 * 0.8 + 0.05 * 0.05 = 0.7625, not 0. -/
theorem C6_counterexample :
    ((1:ℚ)/20 < 1/10 - 8/100 * 0) ∧
    BoboAgentDynamic.score_bid 0 0 true (fun _ : ℕ => (8:ℚ)/10)
      (fun _ => 1/20) 0 0 = 61/80 ∧
    BoboAgentDynamic.score_bid 0 0 true (fun _ : ℕ => (8:ℚ)/10)
      (fun _ => 1/20) 0 0 ≠ 0 := by
  refine ⟨by norm_num, ?_, ?_⟩ <;>
    norm_num [BoboAgentDynamic.score_bid, BoboAgentDynamic.alphaDyn, max_def]

/-- C6 amended: in the boolean-flag variant, for every bid whose predicted
opponent utility is below the rejection floor 0.1 - 0.08 * progress, when
the opponent is not classified greedy (and the opponent model exists, as
it must for a predicted utility to be read), `score_bid` returns exactly
0. -/
theorem C6_rejection_floor_zero_score {Bid : Type} (nice : Bool)
    (u pred : Bid → ℚ) (p : ℚ) (b : Bid)
    (h : pred b < 1/10 - 8/100 * p) :
    BoboAgent.score_bid false nice true u pred p b = 0 := by
  simp only [BoboAgent.score_bid]
  rw [if_neg (by simp : ¬ (true = false)), if_pos ⟨by trivial, h⟩]

/-- Witness for C6 amended: progress 0 and predicted opponent utility
0.05 give score 0 in the boolean-flag variant. -/
theorem C6_rejection_floor_zero_score_witness :
    BoboAgent.score_bid false false true (fun _ : ℕ => (8:ℚ)/10)
      (fun _ => 1/20) 0 0 = 0 :=
  C6_rejection_floor_zero_score false (fun _ : ℕ => (8:ℚ)/10) (fun _ => 1/20) 0 0
    (by norm_num)

/-! ## Claim C1: scenario C of the spec (greedy classification, 0.68 offer) -/

/-- C1 counterexample: after five consecutive opponent offers each with
predicted opponent utility 0.95 the greedy flag is set, but a received
offer of own utility 0.68 is then ACCEPTED already at progress 0.3: the
branch `opponent_is_greedy and offered_util > 0.65` (bobo_agent.py line
256) fires before any near-deadline branch is consulted, so the offer is
not refused at progress 0.3 as the claim states. -/
theorem C1_counterexample :
    (BoboAgent.runClassifier [19/20, 19/20, 19/20, 19/20, 19/20]).opponent_is_greedy
      = true ∧
    BoboAgent.accept_condition
      (BoboAgent.runClassifier [19/20, 19/20, 19/20, 19/20, 19/20]).opponent_is_greedy
      (BoboAgent.runClassifier [19/20, 19/20, 19/20, 19/20, 19/20]).opponent_is_nice
      true (3/10) (some (68/100, 19/20)) = true := by
  have hrun : BoboAgent.runClassifier [19/20, 19/20, 19/20, 19/20, 19/20] =
      { opponent_utils := [19/20, 19/20, 19/20, 19/20, 19/20]
      , opponent_is_greedy := true, opponent_is_nice := false } := by
    norm_num [BoboAgent.runClassifier, BoboAgent.classifyStep, BoboAgent.initState,
      List.foldl]
  rw [hrun]
  constructor
  · rfl
  · norm_num [BoboAgent.accept_condition]

/-- C1 amended: after the opponent is classified greedy (five consecutive
offers each with predicted opponent utility 0.95), a received offer of own
utility 0.68 is accepted at progress 0.3 and at progress 0.995 alike: the
greedy take-the-decent-deal branch (utility above 0.65) fires at every
progress value, so no near-deadline branch is needed. -/
theorem C1_greedy_068_accepted_at_both :
    (BoboAgent.runClassifier [19/20, 19/20, 19/20, 19/20, 19/20]).opponent_is_greedy
      = true ∧
    (BoboAgent.runClassifier [19/20, 19/20, 19/20, 19/20, 19/20]).opponent_is_nice
      = false ∧
    (∀ progress : ℚ,
      BoboAgent.accept_condition
        (BoboAgent.runClassifier [19/20, 19/20, 19/20, 19/20, 19/20]).opponent_is_greedy
        (BoboAgent.runClassifier [19/20, 19/20, 19/20, 19/20, 19/20]).opponent_is_nice
        true progress (some (68/100, 19/20)) = true) ∧
    BoboAgent.accept_condition true false true (995/1000)
      (some (68/100, 19/20)) = true := by
  have hrun : BoboAgent.runClassifier [19/20, 19/20, 19/20, 19/20, 19/20] =
      { opponent_utils := [19/20, 19/20, 19/20, 19/20, 19/20]
      , opponent_is_greedy := true, opponent_is_nice := false } := by
    norm_num [BoboAgent.runClassifier, BoboAgent.classifyStep, BoboAgent.initState,
      List.foldl]
  rw [hrun]
  refine ⟨rfl, rfl, ?_, ?_⟩
  · intro progress
    norm_num [BoboAgent.accept_condition]
  · norm_num [BoboAgent.accept_condition]

/-- Witness for C1 amended at progress 0.3. -/
theorem C1_greedy_068_accepted_at_both_witness :
    BoboAgent.accept_condition
      (BoboAgent.runClassifier [19/20, 19/20, 19/20, 19/20, 19/20]).opponent_is_greedy
      (BoboAgent.runClassifier [19/20, 19/20, 19/20, 19/20, 19/20]).opponent_is_nice
      true (3/10) (some (68/100, 19/20)) = true :=
  C1_greedy_068_accepted_at_both.2.2.1 (3/10)

/-! ## Claim C8: neutral signals while fewer than 3 offers are recorded -/

/-- While the history stays short, the boolean-flag classifier only
appends to the history and leaves both flags untouched. -/
theorem foldl_classifyStep_short (l : List ℚ) (s : BoboAgent.ClassifierState)
    (h : s.opponent_utils.length + l.length ≤ 2) :
    l.foldl BoboAgent.classifyStep s =
      { opponent_utils := s.opponent_utils ++ l
      , opponent_is_greedy := s.opponent_is_greedy
      , opponent_is_nice := s.opponent_is_nice } := by
  induction l generalizing s with
  | nil => simp
  | cons u t ih =>
    have hstep : BoboAgent.classifyStep s u =
        { opponent_utils := s.opponent_utils ++ [u]
        , opponent_is_greedy := s.opponent_is_greedy
        , opponent_is_nice := s.opponent_is_nice } := by
      simp only [BoboAgent.classifyStep]
      rw [if_neg]
      simp at h ⊢
      omega
    rw [List.foldl_cons, hstep, ih]
    · simp
    · simp at h ⊢
      omega

/-- While the history stays short, the continuous-weights classifier only
appends to the history and leaves both weights untouched. -/
theorem foldl_dynStep_short (l : List (ℚ × ℚ)) (s : BoboAgentDynamic.DynState)
    (h : s.opponent_utils.length + l.length ≤ 2) :
    l.foldl (fun a p => BoboAgentDynamic.dynStep a p.1 p.2) s =
      { opponent_utils := s.opponent_utils ++ l.map Prod.fst
      , greedy_weight := s.greedy_weight
      , nice_weight := s.nice_weight } := by
  induction l generalizing s with
  | nil => simp
  | cons u t ih =>
    have hstep : BoboAgentDynamic.dynStep s u.1 u.2 =
        { opponent_utils := s.opponent_utils ++ [u.1]
        , greedy_weight := s.greedy_weight
        , nice_weight := s.nice_weight } := by
      simp only [BoboAgentDynamic.dynStep]
      rw [if_neg]
      simp at h ⊢
      omega
    rw [List.foldl_cons, hstep, ih]
    · simp
    · simp at h ⊢
      omega

/-- C8: while fewer than 3 opponent offers have been recorded, the
behavior signals keep their initial neutral values regardless of the
content of the offers: both boolean flags stay False and both continuous
weights stay 0. -/
theorem C8_signals_neutral_before_three_offers :
    (∀ l : List ℚ, l.length < 3 →
      (BoboAgent.runClassifier l).opponent_is_greedy = false ∧
      (BoboAgent.runClassifier l).opponent_is_nice = false) ∧
    (∀ obs : List (ℚ × ℚ), obs.length < 3 →
      (BoboAgentDynamic.runDynClassifier obs).greedy_weight = 0 ∧
      (BoboAgentDynamic.runDynClassifier obs).nice_weight = 0) := by
  constructor
  · intro l hl
    rw [BoboAgent.runClassifier,
      foldl_classifyStep_short l BoboAgent.initState (by simp [BoboAgent.initState]; omega)]
    exact ⟨rfl, rfl⟩
  · intro obs hobs
    rw [BoboAgentDynamic.runDynClassifier,
      foldl_dynStep_short obs BoboAgentDynamic.dynInit
        (by simp [BoboAgentDynamic.dynInit]; omega)]
    exact ⟨rfl, rfl⟩

/-- Witness for C8: two extreme offers (predicted utility 1) leave both
variants neutral. -/
theorem C8_signals_neutral_before_three_offers_witness :
    ((BoboAgent.runClassifier [1, 1]).opponent_is_greedy = false ∧
      (BoboAgent.runClassifier [1, 1]).opponent_is_nice = false) ∧
    ((BoboAgentDynamic.runDynClassifier [(1, 0), (1, 0)]).greedy_weight = 0 ∧
      (BoboAgentDynamic.runDynClassifier [(1, 0), (1, 0)]).nice_weight = 0) :=
  ⟨C8_signals_neutral_before_three_offers.1 [1, 1] (by norm_num),
   C8_signals_neutral_before_three_offers.2 [(1, 0), (1, 0)] (by norm_num)⟩

/-! ## Claim C5: signals recomputed from the last-5 window on every update -/

/-- C5 counterexample: in the boolean-flag variant the flags are sticky.
Three offers at predicted utility 0.95 set the greedy flag; five further
offers at 0.1 drive the windowed average down to 0.1, so the two histories
[0.95, 0.95, 0.95, 0.1, 0.1, 0.1, 0.1, 0.1] and [0.1, 0.1, 0.1, 0.1, 0.1]
end with the same last-5 window, yet the first leaves the greedy flag True
while the second leaves it False: after an update the signal does not
depend only on the window, and a signal that became high does not return
to its neutral value when the windowed average leaves the greedy band. -/
theorem C5_counterexample :
    BoboAgent.recentWindow
        (BoboAgent.runClassifier
          [19/20, 19/20, 19/20, 1/10, 1/10, 1/10, 1/10, 1/10]).opponent_utils =
      BoboAgent.recentWindow
        (BoboAgent.runClassifier [1/10, 1/10, 1/10, 1/10, 1/10]).opponent_utils ∧
    (BoboAgent.runClassifier
      [19/20, 19/20, 19/20, 1/10, 1/10, 1/10, 1/10, 1/10]).opponent_is_greedy = true ∧
    (BoboAgent.runClassifier [1/10, 1/10, 1/10, 1/10, 1/10]).opponent_is_greedy
      = false := by
  have h1 : BoboAgent.runClassifier
      [19/20, 19/20, 19/20, 1/10, 1/10, 1/10, 1/10, 1/10] =
      { opponent_utils := [19/20, 19/20, 19/20, 1/10, 1/10, 1/10, 1/10, 1/10]
      , opponent_is_greedy := true, opponent_is_nice := true } := by
    norm_num [BoboAgent.runClassifier, BoboAgent.classifyStep, BoboAgent.initState,
      List.foldl]
  have h2 : BoboAgent.runClassifier [1/10, 1/10, 1/10, 1/10, 1/10] =
      { opponent_utils := [1/10, 1/10, 1/10, 1/10, 1/10]
      , opponent_is_greedy := false, opponent_is_nice := false } := by
    norm_num [BoboAgent.runClassifier, BoboAgent.classifyStep, BoboAgent.initState,
      List.foldl]
  rw [h1, h2]
  refine ⟨?_, rfl, rfl⟩
  norm_num [BoboAgent.recentWindow]

/-- C5 amended: only the continuous-weights variant recomputes its signals
from the sliding window on every update: once at least 3 observations
exist, both weights after an update are determined by the last-5 window of
the updated history together with progress.  In the boolean-flag variant
the flags are sticky: an update never resets a flag that is True, so the
flags depend on the whole history and a greedy/nice signal does not return
to its neutral value when the windowed average leaves its band. -/
theorem C5_window_recompute_dyn_sticky_bool :
    (∀ (s : BoboAgent.ClassifierState) (u : ℚ),
      s.opponent_is_greedy = true →
      (BoboAgent.classifyStep s u).opponent_is_greedy = true) ∧
    (∀ (s : BoboAgent.ClassifierState) (u : ℚ),
      s.opponent_is_nice = true →
      (BoboAgent.classifyStep s u).opponent_is_nice = true) ∧
    (∀ (s1 s2 : BoboAgentDynamic.DynState) (u p : ℚ),
      (s1.opponent_utils ++ [u]).length ≥ 3 →
      (s2.opponent_utils ++ [u]).length ≥ 3 →
      BoboAgent.recentWindow (s1.opponent_utils ++ [u]) =
        BoboAgent.recentWindow (s2.opponent_utils ++ [u]) →
      (BoboAgentDynamic.dynStep s1 u p).greedy_weight =
          (BoboAgentDynamic.dynStep s2 u p).greedy_weight ∧
        (BoboAgentDynamic.dynStep s1 u p).nice_weight =
          (BoboAgentDynamic.dynStep s2 u p).nice_weight) := by
  refine ⟨?_, ?_, ?_⟩
  · intro s u h
    simp only [BoboAgent.classifyStep]
    split
    · simp [h]
    · exact h
  · intro s u h
    simp only [BoboAgent.classifyStep]
    split
    · simp [h]
    · exact h
  · intro s1 s2 u p h1 h2 hw
    simp only [BoboAgentDynamic.dynStep]
    rw [if_pos h1, if_pos h2]
    simp only [BoboAgent.recentWindow] at hw
    rw [hw]
    exact ⟨rfl, rfl⟩

/-- Witness for C5 amended: a greedy-flagged state stays greedy after an
offer at 0.1, a nice-flagged state stays nice, and two dynamic states with
histories [0.9, 0.9, 0.9, 0.9] and [0.1, 0.1, 0.9, 0.9, 0.9, 0.9] share the window after one
more offer and get identical recomputed weights. -/
theorem C5_window_recompute_dyn_sticky_bool_witness :
    (BoboAgent.classifyStep
      { opponent_utils := [1, 1, 1], opponent_is_greedy := true
      , opponent_is_nice := false } (1/10)).opponent_is_greedy = true ∧
    (BoboAgent.classifyStep
      { opponent_utils := [7/10, 7/10, 7/10], opponent_is_greedy := false
      , opponent_is_nice := true } (1/10)).opponent_is_nice = true ∧
    ((BoboAgentDynamic.dynStep
        { opponent_utils := [9/10, 9/10, 9/10, 9/10], greedy_weight := 0, nice_weight := 0 }
        (9/10) (1/2)).greedy_weight =
      (BoboAgentDynamic.dynStep
        { opponent_utils := [1/10, 1/10, 9/10, 9/10, 9/10, 9/10], greedy_weight := 1, nice_weight := 1 }
        (9/10) (1/2)).greedy_weight ∧
      (BoboAgentDynamic.dynStep
        { opponent_utils := [9/10, 9/10, 9/10, 9/10], greedy_weight := 0, nice_weight := 0 }
        (9/10) (1/2)).nice_weight =
      (BoboAgentDynamic.dynStep
        { opponent_utils := [1/10, 1/10, 9/10, 9/10, 9/10, 9/10], greedy_weight := 1, nice_weight := 1 }
        (9/10) (1/2)).nice_weight) :=
  ⟨C5_window_recompute_dyn_sticky_bool.1
      { opponent_utils := [1, 1, 1], opponent_is_greedy := true
      , opponent_is_nice := false } (1/10) rfl,
   C5_window_recompute_dyn_sticky_bool.2.1
      { opponent_utils := [7/10, 7/10, 7/10], opponent_is_greedy := false
      , opponent_is_nice := true } (1/10) rfl,
   C5_window_recompute_dyn_sticky_bool.2.2
      { opponent_utils := [9/10, 9/10, 9/10, 9/10], greedy_weight := 0, nice_weight := 0 }
      { opponent_utils := [1/10, 1/10, 9/10, 9/10, 9/10, 9/10], greedy_weight := 1, nice_weight := 1 }
      (9/10) (1/2) (by norm_num) (by norm_num)
      (by norm_num [BoboAgent.recentWindow])⟩

/-! ## Claim C9: offers at or below 0.6 own utility are never accepted -/

/-- C9: in both variants `accept_condition` never returns ACCEPT for a
received bid whose own utility is at most 0.6, for every progress value,
every classification state and every predicted opponent utility in [0,1]
(the opponent-model bound needed by the Nash-product branch); a missing
bid is likewise countered. -/
theorem C9_never_accept_low_utility
    (g n hm : Bool) (gw : ℚ) (hm2 : Bool) (p1 p2 offered opp : ℚ)
    (h0 : 0 ≤ offered) (h1 : offered ≤ 6/10) (h2 : 0 ≤ opp) (h3 : opp ≤ 1) :
    BoboAgent.accept_condition g n hm p1 (some (offered, opp)) = false ∧
    BoboAgentDynamic.accept_condition gw hm2 p2 (some (offered, opp)) = false := by
  have hprod : offered * opp ≤ 6/10 :=
    le_trans (mul_le_mul h1 h3 h2 (by norm_num)) (by norm_num)
  have hlast : ∀ q : ℚ, BoboAgent.lastResort q offered = false := by
    intro q
    simp only [BoboAgent.lastResort]
    split_ifs <;> simp only [decide_eq_false_iff_not, not_lt] <;>
      first | rfl | linarith
  constructor
  · simp only [BoboAgent.accept_condition]
    rw [if_neg (by linarith : ¬ offered ≥ 9/10)]
    rw [if_neg (fun hc => absurd hc.2 (by linarith))]
    cases hm
    · rw [if_neg Bool.false_ne_true]
      exact hlast p1
    · rw [if_pos rfl]
      cases g
      · rw [if_neg Bool.false_ne_true]
        rw [if_neg (fun hc => absurd hc.2.2.1 (by linarith))]
        rw [if_neg (fun hc => absurd hc.2.1 (by linarith))]
        rw [if_neg (fun hc => absurd hc.2.1 (by linarith))]
        rw [if_neg (fun hc => absurd hc.2 (by linarith))]
        split
        · rfl
        · rw [if_neg (fun hc => absurd hc.2.1 (by linarith))]
          exact hlast p1
      · rw [if_pos rfl]
        rw [if_neg (fun hc => absurd hc.2 (by linarith))]
        rw [if_neg (fun hc => absurd hc.2 (by linarith))]
  · simp only [BoboAgentDynamic.accept_condition]
    rw [if_neg (by linarith : ¬ offered ≥ 85/100)]
    rw [if_neg (fun hc => absurd hc.2.2 (by linarith))]
    rw [if_neg (fun hc => absurd hc.2.2.1 (by linarith))]
    rw [if_neg (fun hc => absurd hc.2.2.1 (by linarith))]
    simp only [decide_eq_false_iff_not, not_lt]
    split_ifs <;> linarith

/-- Witness for C9: an offer of own utility 0.6 with predicted opponent
utility 0.4 is refused by both variants at progress 0.99 even with all
signals neutral. -/
theorem C9_never_accept_low_utility_witness :
    BoboAgent.accept_condition false false true (99/100)
      (some ((6:ℚ)/10, 4/10)) = false ∧
    BoboAgentDynamic.accept_condition 0 true (99/100)
      (some ((6:ℚ)/10, 4/10)) = false :=
  C9_never_accept_low_utility false false true 0 true (99/100) (99/100)
    (6/10) (4/10) (by norm_num) (by norm_num) (by norm_num) (by norm_num)

/-! ## Claim C3: the floor property of find_bid -/

/-- Invariant of the sampling loop accumulator: either nothing has been
retained yet (and the best score is still 0), or the retained bid cleared
the floor and its score is strictly positive. -/
def goodAcc {Bid : Type} (getUtility : Bid → ℚ) (min_util : ℚ)
    (acc : Option Bid × ℚ) : Prop :=
  acc = (none, 0) ∨ ∃ b, acc.1 = some b ∧ min_util ≤ getUtility b ∧ 0 < acc.2

/-- One loop iteration preserves the accumulator invariant. -/
theorem sampleStep_good {Bid : Type} (u sc : Bid → ℚ) (m : ℚ)
    (acc : Option Bid × ℚ) (x : Bid) (h : goodAcc u m acc) :
    goodAcc u m (BidSearch.sampleStep u sc m acc x) := by
  simp only [BidSearch.sampleStep]
  split_ifs with hfloor hscore
  · exact h
  · right
    refine ⟨x, rfl, le_of_not_lt hfloor, ?_⟩
    rcases h with h | ⟨b, hb, hub, hpos⟩
    · rw [h] at hscore
      exact hscore
    · exact lt_trans hpos hscore
  · exact h

/-- The whole loop preserves the accumulator invariant. -/
theorem foldl_sampleStep_good {Bid : Type} (u sc : Bid → ℚ) (m : ℚ)
    (l : List Bid) :
    ∀ acc : Option Bid × ℚ, goodAcc u m acc →
      goodAcc u m (l.foldl (BidSearch.sampleStep u sc m) acc) := by
  induction l with
  | nil => exact fun acc h => h
  | cons x t ih =>
    intro acc h
    exact ih _ (sampleStep_good u sc m acc x h)

/-- Once a bid has been retained, the loop never returns to an empty
accumulator. -/
theorem foldl_sampleStep_some {Bid : Type} (u sc : Bid → ℚ) (m : ℚ)
    (l : List Bid) :
    ∀ acc : Option Bid × ℚ, acc.1.isSome = true →
      ((l.foldl (BidSearch.sampleStep u sc m) acc).1).isSome = true := by
  induction l with
  | nil => exact fun acc h => h
  | cons x t ih =>
    intro acc h
    refine ih _ ?_
    simp only [BidSearch.sampleStep]
    split_ifs <;> simp [h]

/-- If every sampled bid is below the floor or scores at most 0, the loop
retains nothing. -/
theorem foldl_sampleStep_allfail {Bid : Type} (u sc : Bid → ℚ) (m : ℚ)
    (l : List Bid) (h : ∀ b ∈ l, u b < m ∨ sc b ≤ 0) :
    l.foldl (BidSearch.sampleStep u sc m) (none, 0) = ((none : Option Bid), (0:ℚ)) := by
  induction l with
  | nil => rfl
  | cons x t ih =>
    have hstep : BidSearch.sampleStep u sc m (none, 0) x = ((none : Option Bid), (0:ℚ)) := by
      simp only [BidSearch.sampleStep]
      rcases h x (List.mem_cons_self x t) with hf | hs
      · rw [if_pos hf]
      · split_ifs with h1 h2
        · rfl
        · exfalso
          simp only [gt_iff_lt] at h2
          exact absurd (lt_of_le_of_lt hs h2) (lt_irrefl _)
        · rfl
    rw [List.foldl_cons, hstep]
    exact ih fun b hb => h b (List.mem_cons_of_mem x hb)

/-- If some sampled bid clears the floor with a strictly positive score,
the loop retains a bid. -/
theorem foldl_sampleStep_retains {Bid : Type} (u sc : Bid → ℚ) (m : ℚ)
    (l : List Bid) :
    ∀ acc : Option Bid × ℚ, goodAcc u m acc →
      (∃ b ∈ l, m ≤ u b ∧ 0 < sc b) →
      ((l.foldl (BidSearch.sampleStep u sc m) acc).1).isSome = true := by
  induction l with
  | nil =>
    rintro acc _ ⟨b, hb, _⟩
    exact absurd hb (List.not_mem_nil b)
  | cons x t ih =>
    rintro acc hacc ⟨b, hb, hub, hsb⟩
    rcases List.mem_cons.mp hb with hbx | hbt
    · subst hbx
      have hsome : (BidSearch.sampleStep u sc m acc b).1.isSome = true := by
        simp only [BidSearch.sampleStep]
        rw [if_neg (not_lt.mpr hub)]
        split_ifs with hscore
        · rfl
        · rcases hacc with h | ⟨c, hc, _, _⟩
          · exfalso
            rw [h] at hscore
            simp only [gt_iff_lt, not_lt] at hscore
            exact absurd (lt_of_lt_of_le hsb hscore) (lt_irrefl _)
          · simp [Option.isSome_iff_exists]
            exact ⟨c, hc⟩
      rw [List.foldl_cons]
      exact foldl_sampleStep_some u sc m t _ hsome
    · rw [List.foldl_cons]
      exact ih _ (sampleStep_good u sc m acc x hacc) ⟨b, hbt, hub, hsb⟩

/-- C3 amended: the sampling loop of `find_bid` retains no bid exactly
when every sampled candidate either falls below the minimum-utility floor
or scores at most 0 (the strict improvement test against the initial best
score 0.0 discards zero-scoring survivors); and whenever the loop retains
a bid, `find_bid` returns it and it clears the floor.  The random fallback
is therefore returned precisely when no sampled candidate clears the floor
with a strictly positive score, not merely when none clears the floor. -/
theorem C3_find_bid_floor_or_fallback {Bid : Type} (u sc : Bid → ℚ) (m : ℚ)
    (samples : List Bid) (fallbackBid : Bid) :
    ((BidSearch.find_bid_loop u sc m samples).1 = none ↔
      ∀ b ∈ samples, u b < m ∨ sc b ≤ 0) ∧
    (∀ b, (BidSearch.find_bid_loop u sc m samples).1 = some b →
      BidSearch.find_bid u sc m samples fallbackBid = b ∧ m ≤ u b) := by
  constructor
  · constructor
    · intro hnone
      by_contra hc
      push_neg at hc
      obtain ⟨b, hb, hub, hsb⟩ := hc
      have := foldl_sampleStep_retains u sc m samples (none, 0) (Or.inl rfl)
        ⟨b, hb, hub, hsb⟩
      rw [BidSearch.find_bid_loop] at hnone
      rw [hnone] at this
      exact absurd this (by simp)
    · intro hall
      rw [BidSearch.find_bid_loop, foldl_sampleStep_allfail u sc m samples hall]
  · intro b hsome
    have hgood := foldl_sampleStep_good u sc m samples (none, 0) (Or.inl rfl)
    rw [← BidSearch.find_bid_loop] at hgood
    rcases hgood with h | ⟨c, hc, hub, _⟩
    · rw [h] at hsome
      exact absurd hsome (by simp)
    · rw [hc] at hsome
      obtain rfl : c = b := Option.some_injective _ hsome
      refine ⟨?_, hub⟩
      simp only [BidSearch.find_bid, hc]

/-- Witness for C3 amended: a single sample of utility 1 against floor 0
and score 1 is retained and returned. -/
theorem C3_find_bid_floor_or_fallback_witness :
    BidSearch.find_bid (fun _ : ℕ => (1:ℚ)) (fun _ => 1) 0 [0] 5 = 0 ∧ (0:ℚ) ≤ 1 :=
  (C3_find_bid_floor_or_fallback (fun _ : ℕ => (1:ℚ)) (fun _ => 1) 0 [0] 5).2 0
    (by norm_num [BidSearch.find_bid_loop, BidSearch.sampleStep, List.foldl])

/-- Concrete own-utility function for the C3 counterexample: bid 0 has
utility 0.9, every other bid 0.1. -/
def cexUtil : ℕ → ℚ := fun b => if b = 0 then 9/10 else 1/10

/-- Concrete scorer for the C3 counterexample: the boolean-flag variant's
`score_bid` at progress 0, opponent not classified greedy, with predicted
opponent utility 0.05 for every bid — below the rejection floor 0.1, so
every bid scores 0. -/
def cexScore : ℕ → ℚ :=
  BoboAgent.score_bid false false true cexUtil (fun _ => 1/20) 0

/-- When the loop retains nothing, `find_bid` returns the fallback bid. -/
theorem find_bid_eq_fallback {Bid : Type} (u sc : Bid → ℚ) (m : ℚ)
    (samples : List Bid) (fb : Bid)
    (h : (BidSearch.find_bid_loop u sc m samples).1 = none) :
    BidSearch.find_bid u sc m samples fb = fb := by
  simp only [BidSearch.find_bid, h]

/-- Folding a function over a constant list leaves a fixed point of the
step unchanged. -/
theorem foldl_replicate_fixed {α β : Type} (f : β → α → β) (acc : β) (a : α)
    (h : f acc a = acc) : ∀ n : ℕ, (List.replicate n a).foldl f acc = acc := by
  intro n
  induction n with
  | zero => rfl
  | succ k ih => rw [List.replicate_succ, List.foldl_cons, h, ih]

/-- C3 counterexample: sampling 500 copies of bid 0, whose own utility 0.9
clears the floor 0.85 but whose score is 0 (rejection-floor pruning),
leaves no retained bid, so `find_bid` returns the random fallback bid 1 of
utility 0.1 — below the floor even though a sampled candidate satisfied
the floor.  The claimed disjunction (returned utility at or above the
floor, or no sampled candidate satisfying it) is false here. -/
theorem C3_counterexample :
    BidSearch.find_bid cexUtil cexScore (BoboAgent.min_util 0)
      (List.replicate 500 0) 1 = 1 ∧
    ¬ (cexUtil (BidSearch.find_bid cexUtil cexScore (BoboAgent.min_util 0)
          (List.replicate 500 0) 1) ≥ BoboAgent.min_util 0 ∨
       ∀ b ∈ List.replicate 500 (0:ℕ), cexUtil b < BoboAgent.min_util 0) := by
  have hscore0 : cexScore 0 = 0 := by
    norm_num [cexScore, BoboAgent.score_bid]
  have hstep : BidSearch.sampleStep cexUtil cexScore (BoboAgent.min_util 0)
      ((none : Option ℕ), (0:ℚ)) 0 = ((none : Option ℕ), (0:ℚ)) := by
    simp only [BidSearch.sampleStep]
    rw [if_neg (by norm_num [cexUtil, BoboAgent.min_util]),
      if_neg (by simp [hscore0])]
  have hloop : BidSearch.find_bid_loop cexUtil cexScore (BoboAgent.min_util 0)
      (List.replicate 500 0) = ((none : Option ℕ), (0:ℚ)) :=
    foldl_replicate_fixed _ _ _ hstep 500
  have hfb : BidSearch.find_bid cexUtil cexScore (BoboAgent.min_util 0)
      (List.replicate 500 0) 1 = 1 :=
    find_bid_eq_fallback _ _ _ _ _ (by rw [hloop])
  refine ⟨hfb, ?_⟩
  rw [hfb]
  push_neg
  refine ⟨by norm_num [cexUtil, BoboAgent.min_util], 0, ?_, ?_⟩
  · exact List.mem_replicate.mpr ⟨by norm_num, rfl⟩
  · norm_num [cexUtil, BoboAgent.min_util]

/-! ## Claim C2: persistence round trip -/

/-- C2 (code bug): a session against opponent X that classified it greedy
saves the record `X,True,False`; a fresh session then runs
`load_opponent_data` from the `Settings` handler while `self.other` is
still `None`, so the comparison `parts[0] == self.other` never matches and
both flags stay at their initial False — the stored greedy signal is NOT
reproduced.  Had the load run with the opponent identity known (third
conjunct), the very same record would reproduce the signals, which
isolates the slip to the call timing. -/
theorem C2_roundtrip_not_reproduced :
    BoboAgent.sessionStartFlags
        (BoboAgent.save_data (some "X".toList) true false []) = (false, false) ∧
    (false, false) ≠ (true, false) ∧
    BoboAgent.load_opponent_data (some "X".toList)
        (BoboAgent.save_data (some "X".toList) true false []) false false
      = (true, false) := by
  refine ⟨?_, by simp, ?_⟩
  · rfl
  · rfl
